import Mathlib

set_option maxHeartbeats 1000000

namespace GoJS

/-! ## JavaScript numbers and values

The GoJS extension files manipulate JavaScript numbers and a handful of
host-library object types.  A JavaScript number is modelled as either the
not-a-number value or a finite rational; the infinities are folded into
`nan`, which is adequate for every guard appearing in this code base
(`isNaN`, `isFinite`, and comparisons against constants, all of which are
false on non-finite values exactly as they are on `nan`). -/

inductive JsNum where
  | nan : JsNum
  | num : ℚ → JsNum
deriving DecidableEq, Repr

def JsNum.isNaN : JsNum → Bool
  | .nan => true
  | .num _ => false

/-- Model of a `go.Spot` value: fractional position plus offsets. -/
structure Spot where
  x : ℚ
  y : ℚ
  offsetX : ℚ
  offsetY : ℚ
deriving DecidableEq, Repr

/-- The value given to a property setter: the tags cover the JavaScript
types that the setters in this repository discriminate on. -/
inductive JsVal where
  | nan : JsVal
  | num : ℚ → JsVal
  | str : String → JsVal
  | spot : Spot → JsVal
  | boolv : Bool → JsVal
  | undef : JsVal
deriving DecidableEq, Repr

/-- `typeof val === 'number'` (true on NaN as well). -/
def JsVal.typeofNumber : JsVal → Bool
  | .nan => true
  | .num _ => true
  | _ => false

/-- `val instanceof go.Spot`. -/
def JsVal.isSpot : JsVal → Bool
  | .spot _ => true
  | _ => false

/-- Extract the number carried by a value, when `typeof val === 'number'`. -/
def JsVal.toNum : JsVal → Option JsNum
  | .nan => some .nan
  | .num q => some (.num q)
  | _ => none

/-- JavaScript strict equality `old !== val` (negated) between a stored
number and an incoming value: `NaN === NaN` is false, and a number is never
strictly equal to a value of another type. -/
def jsNumValEq : JsNum → JsVal → Bool
  | .nan, _ => false
  | .num a, .num b => a == b
  | .num _, _ => false

/-- JavaScript strict equality between a stored string and an incoming value. -/
def jsStrValEq : String → JsVal → Bool
  | s, .str t => s == t
  | _, _ => false

/-- `go.Spot.equals` applied to an arbitrary value: component-wise equality
when the argument is a Spot, false otherwise. -/
def Spot.equalsVal : Spot → JsVal → Bool
  | s, .spot t => s == t
  | _, _ => false

/-- Did an `Except`-modelled JavaScript statement throw? -/
def threw : Except String α → Bool
  | .error _ => true
  | .ok _ => false

/-! ## DimensioningLink (src/extensions/DimensioningLink.js)

We embed the stored configurable fields and the `direction` setter.
`raiseChangedEvent` and `invalidateRoute` are recorded as events. -/

structure DimensioningLink where
  direction : JsNum
  extension : ℚ
  inset : ℚ
  gap : ℚ
deriving DecidableEq, Repr

inductive DimEvent where
  | changed (prop : String) (oldv newv : JsNum)
  | invalidateRoute
deriving DecidableEq, Repr

/-- The `direction` setter of DimensioningLink (lines 68-78 of the source):
accept NaN, 0, 90, 180 or 270, storing the value, raising a Changed event
and invalidating the route; throw on any other number. -/
def DimensioningLink.setDirection (l : DimensioningLink) (val : JsNum) :
    DimensioningLink × Except String (List DimEvent) :=
  let old := l.direction
  if val.isNaN || val == .num 0 || val == .num 90 || val == .num 180 || val == .num 270 then
    ({ l with direction := val },
      .ok [DimEvent.changed "direction" old val, DimEvent.invalidateRoute])
  else
    (l, .error "DimensioningLink: invalid new direction")

/-! ### DimensioningLink.computePoints -/

/-- A `go.Point` whose coordinates are JavaScript numbers. -/
structure JsPoint where
  x : JsNum
  y : JsNum
deriving DecidableEq, Repr

/-- `go.Point.isReal`: both coordinates are actual (finite) numbers. -/
def JsPoint.isReal : JsPoint → Bool
  | ⟨.num _, .num _⟩ => true
  | _ => false

/-- Host-library point geometry used only in the point-to-point branch of
`computePoints`: `go.Point.directionPoint` (the angle in degrees from one
point towards another) and `go.Point.rotate`. -/
structure PointOps where
  directionPoint : (ℚ × ℚ) → (ℚ × ℚ) → ℚ
  rotate : (ℚ × ℚ) → ℚ → ℚ × ℚ

/-- The inputs of one `computePoints` call that come from the host library:
whether each of fromNode, fromPort, toNode and toPort is non-null, and the
two link end points computed by `getLinkPoint`. -/
structure DimRoute where
  hasFromNode : Bool
  hasFromPort : Bool
  hasToNode : Bool
  hasToPort : Bool
  frompoint : JsPoint
  topoint : JsPoint
deriving DecidableEq, Repr

/-- `DimensioningLink.computePoints` (lines 140-226 of the source).
`none` models returning false with the route untouched; `some pts` models
clearing the route, adding exactly the points `pts` in order, and
returning true. -/
def DimensioningLink.computePoints (ops : PointOps) (l : DimensioningLink)
    (r : DimRoute) : Option (List (ℚ × ℚ)) :=
  if r.hasFromNode = false then none
  else if r.hasFromPort = false then none
  else if r.hasToNode = false then none
  else if r.hasToPort = false then none
  else match r.frompoint, r.topoint with
    | ⟨.num fx, .num fy⟩, ⟨.num tx, .num ty⟩ =>
      match l.direction with
      | .nan =>
        let ang := ops.directionPoint (fx, fy) (tx, ty)
        let p := ops.rotate (l.extension, 0) (ang + 90)
        let q := ops.rotate (l.extension - l.inset, 0) (ang + 90)
        let g := ops.rotate (l.gap, 0) (ang + 90)
        some [(fx + g.1, fy + g.2), (fx + p.1, fy + p.2), (fx + q.1, fy + q.2),
              (tx + q.1, ty + q.2), (tx + p.1, ty + p.2), (tx + g.1, ty + g.2)]
      | .num a =>
        if a = 0 ∨ a = 180 then
          if a = 0 then
            let rr := min fy ty - l.extension
            let s := rr + l.inset
            some [(fx, fy - l.gap), (fx + 1/100, rr), (fx, s),
                  (tx, s), (tx - 1/100, rr), (tx, ty - l.gap)]
          else
            let rr := max fy ty + l.extension
            let s := rr - l.inset
            some [(fx, fy + l.gap), (fx + 1/100, rr), (fx, s),
                  (tx, s), (tx - 1/100, rr), (tx, ty + l.gap)]
        else if a = 90 ∨ a = 270 then
          if a = 90 then
            let rr := max fx tx + l.extension
            let s := rr - l.inset
            some [(fx + l.gap, fy), (rr, fy + 1/100), (s, fy),
                  (s, ty), (rr, ty - 1/100), (tx + l.gap, ty)]
          else
            let rr := min fx tx - l.extension
            let s := rr + l.inset
            some [(fx - l.gap, fy), (rr, fy + 1/100), (s, fy),
                  (s, ty), (rr, ty - 1/100), (tx - l.gap, ty)]
        else some []
    | _, _ => none

/-! ## ZoomSlider stored options (src/extensionsJSM/ZoomSlider.js)

The six configurable options are stored fields; the DOM manipulation done by
`resize`/`realign`/the slider div does not touch these fields and is not
modelled.  Each setter is embedded statement-by-statement: the type guard
runs before any field is assigned. -/

structure ZoomSlider where
  size : JsNum
  buttonSize : JsNum
  alignment : Spot
  alignmentFocus : Spot
  orientation : String
  opacity : JsNum
deriving DecidableEq, Repr

/-- `set size(val)` (lines 111-119). -/
def ZoomSlider.setSize (z : ZoomSlider) (val : JsVal) :
    ZoomSlider × Except String Unit :=
  if jsNumValEq z.size val then (z, .ok ())
  else match val.toNum with
    | none => (z, .error "new value for ZoomSlider.size must be a number")
    | some n => ({ z with size := n }, .ok ())

/-- `set buttonSize(val)` (lines 127-135). -/
def ZoomSlider.setButtonSize (z : ZoomSlider) (val : JsVal) :
    ZoomSlider × Except String Unit :=
  if jsNumValEq z.buttonSize val then (z, .ok ())
  else match val.toNum with
    | none => (z, .error "new value for ZoomSlider.buttonSize must be a number")
    | some n => ({ z with buttonSize := n }, .ok ())

/-- `set alignment(val)` (lines 143-151). -/
def ZoomSlider.setAlignment (z : ZoomSlider) (val : JsVal) :
    ZoomSlider × Except String Unit :=
  if z.alignment.equalsVal val then (z, .ok ())
  else match val with
    | .spot s => ({ z with alignment := s }, .ok ())
    | _ => (z, .error "new value for ZoomSlider.alignment must be a Spot")

/-- `set alignmentFocus(val)` (lines 159-168).  Note that the source assigns
`this._alignment = val` as well as `this._alignmentFocus = val`. -/
def ZoomSlider.setAlignmentFocus (z : ZoomSlider) (val : JsVal) :
    ZoomSlider × Except String Unit :=
  if z.alignmentFocus.equalsVal val then (z, .ok ())
  else match val with
    | .spot s => ({ z with alignment := s, alignmentFocus := s }, .ok ())
    | _ => (z, .error "new value for ZoomSlider.alignmentFocus must be a Spot")

/-- `set orientation(val)` (lines 177-186): the validity check runs first,
then the old-value comparison.  A non-string value fails both string
comparisons and therefore throws, exactly as in JavaScript. -/
def ZoomSlider.setOrientation (z : ZoomSlider) (val : JsVal) :
    ZoomSlider × Except String Unit :=
  match val with
  | .str t =>
    if t ≠ "horizontal" ∧ t ≠ "vertical" then
      (z, .error "Orientation must be horizontal or vertical")
    else if z.orientation == t then (z, .ok ())
    else ({ z with orientation := t }, .ok ())
  | _ => (z, .error "Orientation must be horizontal or vertical")

/-- `set opacity(val)` (lines 194-204): guard is
`typeof val !== 'number' || val < 0 || val > 1`; note both comparisons are
false on NaN, so NaN is accepted and stored, as in JavaScript. -/
def ZoomSlider.setOpacity (z : ZoomSlider) (val : JsVal) :
    ZoomSlider × Except String Unit :=
  if jsNumValEq z.opacity val then (z, .ok ())
  else match val.toNum with
    | none => (z, .error "new value for ZoomSlider.opacity must be a number between 0 and 1")
    | some .nan => ({ z with opacity := .nan }, .ok ())
    | some (.num q) =>
      if q < 0 ∨ 1 < q then
        (z, .error "new value for ZoomSlider.opacity must be a number between 0 and 1")
      else ({ z with opacity := .num q }, .ok ())

/-- The ZoomSlider with all options at their constructor defaults
(size 125, buttonSize 25, both alignments Spot.BottomRight, vertical,
opacity 0.75). -/
def ZoomSlider.default : ZoomSlider :=
  { size := .num 125
    buttonSize := .num 25
    alignment := ⟨1, 1, 0, 0⟩
    alignmentFocus := ⟨1, 1, 0, 0⟩
    orientation := "vertical"
    opacity := .num (3/4) }

/-! ## Class declarations and file sizes (all seven component files) -/

inductive ComponentClass where
  | zoomSlider | balloonLink | doubleTreeLayout | linkShiftingTool
  | arrangingLayout | dimensioningLink | spiralLayout
deriving DecidableEq, Repr, Fintype

inductive BaseClass where
  | link | layout | tool
deriving DecidableEq, Repr

/-- The `extends` clause of each component class declaration, transcribed
from the seven source files.  `ZoomSlider` is declared as
`export class ZoomSlider {` with no `extends` clause at all. -/
def declaredSuperclass : ComponentClass → Option BaseClass
  | .zoomSlider => none
  | .balloonLink => some .link
  | .doubleTreeLayout => some .layout
  | .linkShiftingTool => some .tool
  | .arrangingLayout => some .layout
  | .dimensioningLink => some .link
  | .spiralLayout => some .layout

/-- A source file of the repository with its raw line count and its count of
non-blank, non-comment lines. -/
structure SourceFile where
  name : String
  totalLines : ℕ
  codeLines : ℕ
deriving DecidableEq, Repr

/-- The seven component source files with their line counts (raw lines, and
lines that are neither blank nor comment-only). -/
def repoFiles : List SourceFile :=
  [⟨"DimensioningLink.js", 227, 161⟩,
   ⟨"SpiralLayout.js", 179, 122⟩,
   ⟨"ArrangingLayout.ts", 448, 259⟩,
   ⟨"BalloonLink.js", 206, 157⟩,
   ⟨"LinkShiftingTool.js", 303, 231⟩,
   ⟨"ZoomSlider.js", 437, 308⟩,
   ⟨"DoubleTreeLayout.ts", 252, 141⟩]

/-! ## Geometry primitives (host-library `go.Rect`, `go.Margin`,
`go.PathSegment`, `go.PathFigure`, `go.Geometry`), as used by BalloonLink -/

structure Rect where
  x : ℚ
  y : ℚ
  width : ℚ
  height : ℚ
deriving DecidableEq, Repr

def Rect.left (r : Rect) : ℚ := r.x
def Rect.top (r : Rect) : ℚ := r.y
def Rect.right (r : Rect) : ℚ := r.x + r.width
def Rect.bottom (r : Rect) : ℚ := r.y + r.height
def Rect.centerX (r : Rect) : ℚ := r.x + r.width / 2
def Rect.centerY (r : Rect) : ℚ := r.y + r.height / 2
def Rect.center (r : Rect) : ℚ × ℚ := (r.centerX, r.centerY)

structure Margin where
  top : ℚ
  right : ℚ
  bottom : ℚ
  left : ℚ
deriving DecidableEq, Repr

/-- `go.Rect.addMargin`: expand the rectangle on each side. -/
def Rect.addMargin (r : Rect) (m : Margin) : Rect :=
  ⟨r.x - m.left, r.y - m.top, r.width + m.left + m.right, r.height + m.top + m.bottom⟩

/-- `go.Rect.intersectsRect`: whether two rectangles partially or wholly
overlap (touching boundaries count). -/
def Rect.intersectsRect (a b : Rect) : Bool :=
  decide (b.x ≤ a.x + a.width ∧ a.x ≤ b.x + b.width ∧
          b.y ≤ a.y + a.height ∧ a.y ≤ b.y + b.height)

inductive PathSegment where
  | line (ex ey : ℚ)
  | arc (startAngle sweepAngle cx cy rx ry : ℚ)
deriving DecidableEq, Repr

structure PathFigure where
  startX : ℚ
  startY : ℚ
  segs : List PathSegment
  isClosed : Bool
deriving DecidableEq, Repr

/-- A Geometry: its figures, plus the offset applied by `go.Geometry.offset`
(recorded rather than pushed through every coordinate). -/
structure Geometry where
  figures : List PathFigure
  offx : ℚ
  offy : ℚ
deriving DecidableEq, Repr

/-- `new go.Geometry()`. -/
def Geometry.empty : Geometry := ⟨[], 0, 0⟩

/-! ## BalloonLink (src/extensionsJSM/BalloonLink.js) -/

/-- The in-progress PathFigure of `makeGeometry` together with the `prevx`,
`prevy` locals of the source. -/
structure FigState where
  fig : PathFigure
  prevx : ℚ
  prevy : ℚ
deriving DecidableEq, Repr

/-- The `start(x, y)` helper of `makeGeometry`. -/
def figStart (x y : ℚ) : FigState :=
  { fig := { startX := x, startY := y, segs := [], isClosed := false },
    prevx := x, prevy := y }

/-- The `point(x, y, v, w)` helper of `makeGeometry`. -/
def figPoint (st : FigState) (x y v w : ℚ) : FigState :=
  { fig := { st.fig with segs := st.fig.segs ++ [.line x y, .line v w] },
    prevx := v, prevy := w }

/-- The `turn(x, y)` helper of `makeGeometry` (the rounded corner radius is
the clamped `corner` local). -/
def figTurn (corner : ℚ) (st : FigState) (x y : ℚ) : FigState :=
  if st.prevx = x ∧ y < st.prevy then
    { fig := { st.fig with segs := st.fig.segs ++
        [.line x (y + corner), .arc 180 90 (x + corner) (y + corner) corner corner] },
      prevx := x, prevy := y }
  else if st.prevx < x ∧ st.prevy = y then
    { fig := { st.fig with segs := st.fig.segs ++
        [.line (x - corner) y, .arc 270 90 (x - corner) (y + corner) corner corner] },
      prevx := x, prevy := y }
  else if st.prevx = x ∧ st.prevy < y then
    { fig := { st.fig with segs := st.fig.segs ++
        [.line x (y - corner), .arc 0 90 (x - corner) (y - corner) corner corner] },
      prevx := x, prevy := y }
  else if x < st.prevx ∧ st.prevy = y then
    { fig := { st.fig with segs := st.fig.segs ++
        [.line (x + corner) y, .arc 90 90 (x + corner) (y - corner) corner corner] },
      prevx := x, prevy := y }
  else
    { st with prevx := x, prevy := y }

/-- The state of a BalloonLink relevant to `makeGeometry`: its stored
`base` and inherited `corner` properties, the bounds and margin of the
nodes it connects (`none` bounds meaning the node is null), its route
points and the route bounds. -/
structure BalloonLink where
  base : ℚ
  corner : ℚ
  fromNodeBounds : Option Rect
  fromNodeMargin : Margin
  toNodeBounds : Option Rect
  points : List (ℚ × ℚ)
  routeBounds : Rect
deriving DecidableEq, Repr

/-- The triangle-base width actually used by `makeGeometry`
(`Math.max(0, this.base)`, line 78 of the source). -/
def BalloonLink.baseUsed (l : BalloonLink) : ℚ := max 0 l.base

/-- The corner radius actually used by `makeGeometry`
(`Math.min(Math.max(0, this.corner), Math.min(bb.width / 2, bb.height / 2))`,
line 79 of the source), for the margin-expanded bounds `bb`. -/
def BalloonLink.cornerUsed (l : BalloonLink) (bb : Rect) : ℚ :=
  min (max 0 l.corner) (min (bb.width / 2) (bb.height / 2))

/-- `BalloonLink.makeGeometry` (lines 66-205 of the source). -/
def BalloonLink.makeGeometry (l : BalloonLink) : Geometry :=
  match l.fromNodeBounds with
  | none => Geometry.empty
  | some fb =>
    let bb := fb.addMargin l.fromNodeMargin
    let pn0 := if l.points.length = 0 then bb.center else l.points.getLastD (0, 0)
    let pn :=
      match l.toNodeBounds with
      | some tb => if bb.intersectsRect tb then tb.center else pn0
      | none => if l.points.length = 0 then (bb.centerX, bb.bottom + 50) else pn0
    let base := l.baseUsed
    let corner := l.cornerUsed bb
    let cornerext := min base (corner + base / 2)
    let st :=
      if pn.1 < bb.left then
        if pn.2 < bb.top then
          let s0 := figStart bb.left (min (bb.top + cornerext) (bb.bottom - corner))
          let s1 := figPoint s0 pn.1 pn.2 (min (bb.left + cornerext) (bb.right - corner)) bb.top
          let s2 := figTurn corner s1 bb.right bb.top
          let s3 := figTurn corner s2 bb.right bb.bottom
          figTurn corner s3 bb.left bb.bottom
        else if bb.bottom < pn.2 then
          let s0 := figStart (min (bb.left + cornerext) (bb.right - corner)) bb.bottom
          let s1 := figPoint s0 pn.1 pn.2 bb.left (max (bb.bottom - cornerext) (bb.top + corner))
          let s2 := figTurn corner s1 bb.left bb.top
          let s3 := figTurn corner s2 bb.right bb.top
          figTurn corner s3 bb.right bb.bottom
        else
          let y := min (max (pn.2 + base / 3) (bb.top + corner + base)) (bb.bottom - corner)
          let s0 := figStart bb.left y
          let s1 := figPoint s0 pn.1 pn.2 bb.left (max (y - base) (bb.top + corner))
          let s2 := figTurn corner s1 bb.left bb.top
          let s3 := figTurn corner s2 bb.right bb.top
          let s4 := figTurn corner s3 bb.right bb.bottom
          figTurn corner s4 bb.left bb.bottom
      else if bb.right < pn.1 then
        if pn.2 < bb.top then
          let s0 := figStart (max (bb.right - cornerext) (bb.left + corner)) bb.top
          let s1 := figPoint s0 pn.1 pn.2 bb.right (min (bb.top + cornerext) (bb.bottom - corner))
          let s2 := figTurn corner s1 bb.right bb.bottom
          let s3 := figTurn corner s2 bb.left bb.bottom
          figTurn corner s3 bb.left bb.top
        else if bb.bottom < pn.2 then
          let s0 := figStart bb.right (max (bb.bottom - cornerext) (bb.top + corner))
          let s1 := figPoint s0 pn.1 pn.2 (max (bb.right - cornerext) (bb.left + corner)) bb.bottom
          let s2 := figTurn corner s1 bb.left bb.bottom
          let s3 := figTurn corner s2 bb.left bb.top
          figTurn corner s3 bb.right bb.top
        else
          let y := min (max (pn.2 + base / 3) (bb.top + corner + base)) (bb.bottom - corner)
          let s0 := figStart bb.right (max (y - base) (bb.top + corner))
          let s1 := figPoint s0 pn.1 pn.2 bb.right y
          let s2 := figTurn corner s1 bb.right bb.bottom
          let s3 := figTurn corner s2 bb.left bb.bottom
          let s4 := figTurn corner s3 bb.left bb.top
          figTurn corner s4 bb.right bb.top
      else
        let x := min (max (pn.1 + base / 3) (bb.left + corner + base)) (bb.right - corner)
        if pn.2 < bb.top then
          let s0 := figStart (max (x - base) (bb.left + corner)) bb.top
          let s1 := figPoint s0 pn.1 pn.2 x bb.top
          let s2 := figTurn corner s1 bb.right bb.top
          let s3 := figTurn corner s2 bb.right bb.bottom
          let s4 := figTurn corner s3 bb.left bb.bottom
          figTurn corner s4 bb.left bb.top
        else if bb.bottom < pn.2 then
          let s0 := figStart x bb.bottom
          let s1 := figPoint s0 pn.1 pn.2 (max (x - base) (bb.left + corner)) bb.bottom
          let s2 := figTurn corner s1 bb.left bb.bottom
          let s3 := figTurn corner s2 bb.left bb.top
          let s4 := figTurn corner s3 bb.right bb.top
          figTurn corner s4 bb.right bb.bottom
        else
          let s0 := figStart bb.left (bb.top + bb.height / 2)
          let s1 := figTurn corner s0 bb.left bb.top
          let s2 := figTurn corner s1 bb.right bb.top
          let s3 := figTurn corner s2 bb.right bb.bottom
          figTurn corner s3 bb.left bb.bottom
    { figures := [{ st.fig with isClosed := true }],
      offx := -l.routeBounds.x, offy := -l.routeBounds.y }

/-! ## ArrangingLayout.splitParts (src/extensionsJSM/ArrangingLayout.ts)

The collection handed to `splitParts` is modelled as a list of parts; a
Node carries the count of its connected links (`linksConnected.count`),
a Link carries the ids of its from and to nodes (`none` when missing), and
`other` stands for any Part that is neither a Node nor a Link.  The claim
concerns the null-filter behaviour, so `this.filter` is null throughout. -/

inductive APart where
  | node (id : ℕ) (linkCount : ℕ)
  | link (id : ℕ) (fromN toN : Option ℕ)
  | other (id : ℕ)
deriving DecidableEq, Repr

def APart.isLinkPart : APart → Bool
  | .link _ _ _ => true
  | _ => false

/-- `coll.has(n)` for a Node `n` identified by its id. -/
def nodeMem (coll : List APart) (n : ℕ) : Bool :=
  coll.any fun p => match p with
    | .node i _ => i == n
    | _ => false

/-- First pass of `splitParts` (lines 224-235 of the source), with a null
filter: skip Links; a Node goes to maincoll when it has a connected link,
and every other non-Link goes to sidecoll. -/
def splitPass1 : List APart → List APart × List APart → List APart × List APart
  | [], acc => acc
  | p :: rest, acc =>
    splitPass1 rest (match p with
      | .node i c => if 0 < c then (acc.1 ++ [.node i c], acc.2) else (acc.1, acc.2 ++ [.node i c])
      | .link _ _ _ => acc
      | .other i => (acc.1, acc.2 ++ [.other i]))

/-- Second pass of `splitParts` (lines 237-246 of the source): a Link with
both end nodes present goes to maincoll when both are in maincoll, else to
sidecoll when both are in sidecoll, else to neither; Links with a missing
end node are skipped. -/
def splitPass2 : List APart → List APart × List APart → List APart × List APart
  | [], acc => acc
  | p :: rest, acc =>
    splitPass2 rest (match p with
      | .link i (some a) (some b) =>
        if nodeMem acc.1 a && nodeMem acc.1 b then
          (acc.1 ++ [.link i (some a) (some b)], acc.2)
        else if nodeMem acc.2 a && nodeMem acc.2 b then
          (acc.1, acc.2 ++ [.link i (some a) (some b)])
        else acc
      | .link _ _ _ => acc
      | .node _ _ => acc
      | .other _ => acc)

/-- `ArrangingLayout.splitParts` (lines 221-247) with a null filter. -/
def splitParts (coll : List APart) : List APart × List APart :=
  splitPass2 coll (splitPass1 coll ([], []))

/-- Predicate for the first pass's maincoll: a Node with a connected link. -/
def isMainPart : APart → Bool
  | .node _ c => decide (0 < c)
  | _ => false

/-- Predicate for the first pass's sidecoll: a link-less Node or a
non-Node non-Link Part. -/
def isSidePart : APart → Bool
  | .node _ c => c == 0
  | .other _ => true
  | .link _ _ _ => false

/-- Predicate for the second pass's additions to maincoll. -/
def linkMainP (M : List APart) : APart → Bool
  | .link _ (some a) (some b) => nodeMem M a && nodeMem M b
  | _ => false

/-- Predicate for the second pass's additions to sidecoll. -/
def linkSideP (M S : List APart) : APart → Bool
  | .link _ (some a) (some b) => !(nodeMem M a && nodeMem M b) && (nodeMem S a && nodeMem S b)
  | _ => false

lemma nodeMem_append_links (M L : List APart) (hL : ∀ q ∈ L, q.isLinkPart = true)
    (n : ℕ) : nodeMem (M ++ L) n = nodeMem M n := by
  have h : (L.any fun p => match p with
      | APart.node i _ => i == n
      | _ => false) = false := by
    rw [List.any_eq_false]
    intro q hq
    have := hL q hq
    cases q <;> simp_all [APart.isLinkPart]
  simp [nodeMem, List.any_append, h]

lemma linkMainP_append_link (M : List APart) (l0 : APart) (hl : l0.isLinkPart = true)
    (q : APart) : linkMainP (M ++ [l0]) q = linkMainP M q := by
  have hmem : ∀ n, nodeMem (M ++ [l0]) n = nodeMem M n := by
    intro n
    exact nodeMem_append_links M [l0] (by intro q hq; simp_all) n
  cases q with
  | link i fa ta =>
    cases fa with
    | none => simp [linkMainP]
    | some a =>
      cases ta with
      | none => simp [linkMainP]
      | some b => simp [linkMainP, hmem]
  | node i c => simp [linkMainP]
  | other i => simp [linkMainP]

lemma linkSideP_append_link (M S : List APart) (l0 : APart) (hl : l0.isLinkPart = true)
    (q : APart) :
    linkSideP (M ++ [l0]) S q = linkSideP M S q
    ∧ linkSideP M (S ++ [l0]) q = linkSideP M S q := by
  have hmem : ∀ (X : List APart) (n : ℕ), nodeMem (X ++ [l0]) n = nodeMem X n := by
    intro X n
    exact nodeMem_append_links X [l0] (by intro q hq; simp_all) n
  cases q with
  | link i fa ta =>
    cases fa with
    | none => simp [linkSideP]
    | some a =>
      cases ta with
      | none => simp [linkSideP]
      | some b => simp [linkSideP, hmem]
  | node i c => simp [linkSideP]
  | other i => simp [linkSideP]

lemma splitPass1_spec : ∀ (coll : List APart) (acc : List APart × List APart),
    splitPass1 coll acc =
      (acc.1 ++ coll.filter isMainPart, acc.2 ++ coll.filter isSidePart) := by
  intro coll
  induction coll with
  | nil => intro acc; simp [splitPass1]
  | cons p rest ih =>
    intro acc
    cases p with
    | node i c =>
      by_cases h : 0 < c
      · have hc : (c == 0) = false := by
          simp only [beq_eq_false_iff_ne]
          omega
        simp [splitPass1, ih, List.filter_cons, isMainPart, isSidePart, h, hc]
      · have hc : (c == 0) = true := by
          simp only [beq_iff_eq]
          omega
        simp [splitPass1, ih, List.filter_cons, isMainPart, isSidePart, h, hc]
    | link i fa ta => simp [splitPass1, ih, List.filter_cons, isMainPart, isSidePart]
    | other i => simp [splitPass1, ih, List.filter_cons, isMainPart, isSidePart]

lemma splitPass2_spec : ∀ (coll M S : List APart),
    splitPass2 coll (M, S) =
      (M ++ coll.filter (linkMainP M), S ++ coll.filter (linkSideP M S)) := by
  intro coll
  induction coll with
  | nil => intro M S; simp [splitPass2]
  | cons p rest ih =>
    intro M S
    cases p with
    | node i c => simp [splitPass2, ih, List.filter_cons, linkMainP, linkSideP]
    | other i => simp [splitPass2, ih, List.filter_cons, linkMainP, linkSideP]
    | link i fa ta =>
      cases fa with
      | none => simp [splitPass2, ih, List.filter_cons, linkMainP, linkSideP]
      | some a =>
        cases ta with
        | none => simp [splitPass2, ih, List.filter_cons, linkMainP, linkSideP]
        | some b =>
          by_cases hm : (nodeMem M a && nodeMem M b) = true
          · rw [splitPass2]
            simp only [hm, if_true]
            rw [ih (M ++ [APart.link i (some a) (some b)]) S]
            rw [List.filter_congr
              (fun x _ => linkMainP_append_link M (APart.link i (some a) (some b)) rfl x)]
            rw [List.filter_congr
              (fun x _ => (linkSideP_append_link M S (APart.link i (some a) (some b)) rfl x).1)]
            have hside : linkSideP M S (APart.link i (some a) (some b)) = false := by
              simp [linkSideP, hm]
            simp [List.filter_cons, linkMainP, hm, hside]
          · by_cases hs : (nodeMem S a && nodeMem S b) = true
            · rw [splitPass2]
              simp only [hm, if_false, hs, if_true, Bool.false_eq_true]
              rw [ih M (S ++ [APart.link i (some a) (some b)])]
              rw [List.filter_congr
                (fun x _ => (linkSideP_append_link M S (APart.link i (some a) (some b)) rfl x).2)]
              have hside : linkSideP M S (APart.link i (some a) (some b)) = true := by
                simp [linkSideP, hm, hs]
              simp [List.filter_cons, linkMainP, hm, hside]
            · rw [splitPass2]
              simp only [hm, hs, if_false, Bool.false_eq_true]
              rw [ih M S]
              have hside : linkSideP M S (APart.link i (some a) (some b)) = false := by
                simp [linkSideP, hm, hs]
              simp [List.filter_cons, linkMainP, hm, hside]

lemma splitParts_eq (coll : List APart) :
    splitParts coll =
      (coll.filter isMainPart ++ coll.filter (linkMainP (coll.filter isMainPart)),
       coll.filter isSidePart ++
         coll.filter (linkSideP (coll.filter isMainPart) (coll.filter isSidePart))) := by
  rw [splitParts, splitPass1_spec, List.nil_append, List.nil_append, splitPass2_spec]

lemma linkMainP_filter_links (M coll : List APart) :
    ∀ q ∈ coll.filter (linkMainP M), q.isLinkPart = true := by
  intro q hq
  rw [List.mem_filter] at hq
  cases q <;> simp_all [linkMainP, APart.isLinkPart]

lemma linkSideP_filter_links (M S coll : List APart) :
    ∀ q ∈ coll.filter (linkSideP M S), q.isLinkPart = true := by
  intro q hq
  rw [List.mem_filter] at hq
  cases q <;> simp_all [linkSideP, APart.isLinkPart]

lemma nodeMem_splitParts (coll : List APart) (n : ℕ) :
    nodeMem (splitParts coll).1 n = nodeMem (coll.filter isMainPart) n
    ∧ nodeMem (splitParts coll).2 n = nodeMem (coll.filter isSidePart) n := by
  rw [splitParts_eq]
  exact ⟨nodeMem_append_links _ _ (linkMainP_filter_links _ _) n,
         nodeMem_append_links _ _ (linkSideP_filter_links _ _ _) n⟩

lemma nodeMem_exists (X : List APart) (n : ℕ) (h : nodeMem X n = true) :
    ∃ c, APart.node n c ∈ X := by
  rw [nodeMem, List.any_eq_true] at h
  obtain ⟨q, hq, hmatch⟩ := h
  cases q with
  | node i c =>
    refine ⟨c, ?_⟩
    simp only [beq_iff_eq] at hmatch
    rwa [hmatch] at hq
  | link i fa ta => simp at hmatch
  | other i => simp at hmatch

/-- Under unique node ids, no node id is in both first-pass collections. -/
lemma nodeMem_not_both (coll : List APart)
    (huniq : ∀ i c c', APart.node i c ∈ coll → APart.node i c' ∈ coll → c = c')
    (a : ℕ) (hm : nodeMem (coll.filter isMainPart) a = true)
    (hs : nodeMem (coll.filter isSidePart) a = true) : False := by
  obtain ⟨c, hc⟩ := nodeMem_exists _ _ hm
  obtain ⟨c', hc'⟩ := nodeMem_exists _ _ hs
  rw [List.mem_filter] at hc hc'
  have h1 : 0 < c := by simpa [isMainPart] using hc.2
  have h2 : c' = 0 := by simpa [isSidePart] using hc'.2
  have := huniq a c c' hc.1 hc'.1
  omega

/-! ## DoubleTreeLayout (src/unnamed/part_000, DoubleTreeLayout.ts)

The collection is a list of parts; the tree structure that the host
library's `findTreeParentNode` / `findTreeChildrenNodes` / `findTreeParts`
walk is determined by the diagram's links and its `isTreePathToChildren`
flag, which we model directly. -/

inductive GPart where
  | node (id : ℕ)
  | link (src dst : ℕ)
deriving DecidableEq, Repr

/-- The link structure of the diagram: its links as (fromNode id,
toNode id) pairs, and its `isTreePathToChildren` flag. -/
structure TreeDiagram where
  links : List (ℕ × ℕ)
  forwards : Bool
deriving DecidableEq, Repr

/-- `Node.findTreeParentLink` of the host library: the link coming into
the node when `isTreePathToChildren`, the link leaving it otherwise. -/
def findTreeParentLink (d : TreeDiagram) (n : ℕ) : Option (ℕ × ℕ) :=
  if d.forwards then d.links.find? (fun l => l.2 == n)
  else d.links.find? (fun l => l.1 == n)

/-- `Node.findTreeParentNode` of the host library. -/
def findTreeParentNode (d : TreeDiagram) (n : ℕ) : Option ℕ :=
  (findTreeParentLink d n).map (fun l => if d.forwards then l.1 else l.2)

/-- `Node.findTreeChildrenNodes` of the host library. -/
def findTreeChildrenNodes (d : TreeDiagram) (n : ℕ) : List ℕ :=
  (d.links.filter (fun l => (if d.forwards then l.1 else l.2) == n)).map
    (fun l => if d.forwards then l.2 else l.1)

/-- `Node.findTreeParts` of the host library, with explicit recursion
fuel: the node itself, and for each tree child the connecting link and the
child's own tree parts. -/
def findTreeParts (d : TreeDiagram) : ℕ → ℕ → List GPart
  | 0, n => [GPart.node n]
  | fuel + 1, n =>
    GPart.node n ::
      (findTreeChildrenNodes d n).flatMap (fun c =>
        (if d.forwards then GPart.link n c else GPart.link c n) ::
          findTreeParts d fuel c)

/-- The roots found by the first loop of `separatePartsForLayout`
(lines 188-190): the Nodes of the collection with no tree parent. -/
def rootsOf (d : TreeDiagram) (coll : List GPart) : List ℕ :=
  coll.filterMap (fun p => match p with
    | .node n => if (findTreeParentNode d n).isNone then some n else none
    | _ => none)

/-- The first Node of the collection (lines 192-199). -/
def firstNodeOf (coll : List GPart) : Option ℕ :=
  (coll.filterMap (fun p => match p with | .node n => some n | _ => none)).head?

/-- An id not used by any part of the collection, for the dummy root
node created in the multiple-roots case. -/
def freshId (coll : List GPart) : ℕ :=
  (coll.map (fun p => match p with | .node n => n | .link a b => max a b)).foldr max 0 + 1

/-- The diagram after the multiple-roots case has created a dummy link
from the dummy root to each apparent root (lines 204-218): forwards when
`isTreePathToChildren`, reversed otherwise. -/
def dummyLinks (d : TreeDiagram) (coll : List GPart) : List (ℕ × ℕ) :=
  (rootsOf d coll).map
    (fun c => if d.forwards then (freshId coll, c) else (c, freshId coll))

def dummyExtended (d : TreeDiagram) (coll : List GPart) : TreeDiagram :=
  { d with links := d.links ++ dummyLinks d coll }

/-- The root-selection part of `separatePartsForLayout` (lines 186-220):
the single root when there is exactly one, the first Node when there is
none, and the fresh dummy root over the extended diagram when there are
several; `none` when the collection has no Node at all. -/
def chooseRoot (d : TreeDiagram) (coll : List GPart) : Option (ℕ × TreeDiagram) :=
  let roots := rootsOf d coll
  if roots.length = 0 then
    match firstNodeOf coll with
    | none => none
    | some r => some (r, d)
  else if roots.length = 1 then some (roots.headD 0, d)
  else some (freshId coll, dummyExtended d coll)

/-- The loop over the root's immediate tree children (lines 227-236):
each child's whole subtree plus its tree parent link goes to rightParts
when the direction function holds of the child, and to leftParts
otherwise. -/
def addSubtrees (d : TreeDiagram) (dir : ℕ → Bool) (fuel : ℕ) :
    List ℕ → List GPart × List GPart → List GPart × List GPart
  | [], lr => lr
  | c :: cs, (l, r) =>
    let sub := findTreeParts d fuel c
    let sub2 := match findTreeParentLink d c with
      | some pl => sub ++ [GPart.link pl.1 pl.2]
      | none => sub
    addSubtrees d dir fuel cs (if dir c then (l, r ++ sub2) else (l ++ sub2, r))

/-- `DoubleTreeLayout.separatePartsForLayout` (lines 181-237): choose the
root, seed both part sets with it, and distribute each immediate subtree. -/
def separatePartsForLayout (d : TreeDiagram) (dir : ℕ → Bool) (coll : List GPart) :
    List GPart × List GPart :=
  match chooseRoot d coll with
  | none => ([], [])
  | some (root, d2) =>
    addSubtrees d2 dir (d2.links.length + 1)
      (findTreeChildrenNodes d2 root)
      ([GPart.node root], [GPart.node root])

lemma addSubtrees_mono (d : TreeDiagram) (dir : ℕ → Bool) (fuel : ℕ) :
    ∀ (cs : List ℕ) (lr : List GPart × List GPart) (p : GPart),
      (p ∈ lr.1 → p ∈ (addSubtrees d dir fuel cs lr).1)
      ∧ (p ∈ lr.2 → p ∈ (addSubtrees d dir fuel cs lr).2) := by
  intro cs
  induction cs with
  | nil => intro lr p; simp [addSubtrees]
  | cons c cs ih =>
    intro lr p
    rcases lr with ⟨l, r⟩
    rw [addSubtrees]
    by_cases hc : dir c = true
    · simp only [hc, if_true]
      exact ⟨fun hp => (ih _ p).1 hp,
             fun hp => (ih _ p).2 (List.mem_append_left _ hp)⟩
    · simp only [hc, Bool.false_eq_true, if_false]
      exact ⟨fun hp => (ih _ p).1 (List.mem_append_left _ hp),
             fun hp => (ih _ p).2 hp⟩

lemma addSubtrees_insert (d : TreeDiagram) (dir : ℕ → Bool) (fuel : ℕ) :
    ∀ (cs : List ℕ) (lr : List GPart × List GPart) (c : ℕ), c ∈ cs →
      ∀ p : GPart,
        (p ∈ findTreeParts d fuel c
          ∨ ∃ pl, findTreeParentLink d c = some pl ∧ p = GPart.link pl.1 pl.2) →
        p ∈ (if dir c then (addSubtrees d dir fuel cs lr).2
             else (addSubtrees d dir fuel cs lr).1) := by
  intro cs
  induction cs with
  | nil => intro lr c hc; simp at hc
  | cons c' cs ih =>
    intro lr c hc p hp
    rcases lr with ⟨l, r⟩
    rcases List.mem_cons.mp hc with rfl | hmem
    · have hsub : p ∈ (match findTreeParentLink d c with
          | some pl => findTreeParts d fuel c ++ [GPart.link pl.1 pl.2]
          | none => findTreeParts d fuel c) := by
        rcases hp with hp | ⟨pl, hpl, rfl⟩
        · cases hpar : findTreeParentLink d c with
          | none => simpa [hpar] using hp
          | some pl => simp only [hpar]; exact List.mem_append_left _ hp
        · simp only [hpl]
          exact List.mem_append_right _ (by simp)
      rw [addSubtrees]
      by_cases hd : dir c = true
      · simp only [hd, if_true]
        exact (addSubtrees_mono d dir fuel cs _ p).2 (List.mem_append_right _ hsub)
      · simp only [hd, Bool.false_eq_true, if_false]
        exact (addSubtrees_mono d dir fuel cs _ p).1 (List.mem_append_right _ hsub)
    · rw [addSubtrees]
      by_cases hd : dir c' = true
      · simp only [hd, if_true]
        exact ih _ c hmem p hp
      · simp only [hd, Bool.false_eq_true, if_false]
        exact ih _ c hmem p hp

lemma le_foldr_max (l : List ℕ) (n : ℕ) (h : n ∈ l) : n ≤ l.foldr max 0 := by
  induction l with
  | nil => simp at h
  | cons a l ih =>
    rcases List.mem_cons.mp h with rfl | h'
    · exact le_max_left _ _
    · exact le_trans (ih h') (le_max_right _ _)

lemma freshId_not_node (coll : List GPart) (n : ℕ) (h : GPart.node n ∈ coll) :
    n ≠ freshId coll := by
  have hm : n ∈ coll.map (fun p => match p with
      | GPart.node n => n
      | GPart.link a b => max a b) :=
    List.mem_map.mpr ⟨GPart.node n, h, rfl⟩
  have := le_foldr_max _ _ hm
  unfold freshId
  omega

/-! ## SpiralLayout (src/extensions/SpiralLayout.js)

The layout walks a chain of vertices.  The `Math` functions it uses are
abstracted as a structure of operations over the rationals, so the
embedding is parametric in cos, sin, atan, sqrt and the constant pi:
every theorem below holds for any interpretation of these operations,
in particular for the real ones. -/

structure TrigOps where
  pi : ℚ
  cos : ℚ → ℚ
  sin : ℚ → ℚ
  atan : ℚ → ℚ
  sqrt : ℚ → ℚ

/-- A vertex of the layout network: the size of its node's bounds, and,
when the incoming link ends at a member node of a Group rather than at the
Group itself, the offset `link.toNode.location - vert.node.location`. -/
structure SpiralVertex where
  width : ℚ
  height : ℚ
  groupOffset : Option (ℚ × ℚ)
deriving DecidableEq, Repr

/-- `SpiralLayout.diameter` (lines 173-178 of the source): the diagonal of
the vertex's bounds. -/
def diameter (T : TrigOps) (v : SpiralVertex) : ℚ :=
  T.sqrt (v.width * v.width + v.height * v.height)

/-- The radius actually used by doLayout (lines 119-121):
`if (rad <= 0 || isNaN(rad) || !isFinite(rad)) rad = this.diameter(root) / 4`
(non-finite values are folded into nan in the JsNum model). -/
def effectiveRadius (T : TrigOps) (radius : JsNum) (root : SpiralVertex) : ℚ :=
  match radius with
  | .nan => diameter T root / 4
  | .num r => if r ≤ 0 then diameter T root / 4 else r

/-- The `while (vert !== null)` loop of doLayout (lines 133-166), started
at the first vertex after the root: emits each vertex's center, updating
the angle between consecutive vertices.  Link curviness assignments do not
affect the centers and are not modelled. -/
def placeRest (T : TrigOps) (cw rad space ox oy : ℚ) :
    ℚ → List SpiralVertex → List (ℚ × ℚ)
  | _, [] => []
  | angle, v :: rest =>
    let c := T.cos angle
    let s := T.sin angle
    let x0 := rad * (c + angle * s)
    let y0 := rad * (s - angle * c)
    let x := match v.groupOffset with | none => x0 | some o => x0 - o.1
    let y := match v.groupOffset with | none => y0 | some o => y0 - o.2
    match rest with
    | [] => [(x + ox, y + oy)]
    | w :: rest2 =>
      let dia := diameter T v / 2 + diameter T w / 2
      let angle2 := angle + cw * T.atan ((dia + space) / T.sqrt (x * x + y * y))
      (x + ox, y + oy) :: placeRest T cw rad space ox oy angle2 (w :: rest2)

/-- `SpiralLayout.doLayout` (lines 93-169), restricted to the positions it
assigns along the chain: the root vertex's center is the arrangement
origin, and each following vertex is placed by the loop starting at angle
`cw * PI`. -/
def SpiralLayout.doLayoutPositions (T : TrigOps) (clockwise : Bool)
    (radius : JsNum) (spacing ox oy : ℚ) (root : SpiralVertex)
    (rest : List SpiralVertex) : List (ℚ × ℚ) :=
  let cw : ℚ := if clockwise then 1 else -1
  let rad := effectiveRadius T radius root
  (ox, oy) :: placeRest T cw rad spacing ox oy (cw * T.pi) rest

/-- The involute-spiral point of the claim, before translation by the
origin: `(rad*(cos(angle)+angle*sin(angle)), rad*(sin(angle)-angle*cos(angle)))`,
shifted by the group-member offset when present. -/
def specXY (T : TrigOps) (rad angle : ℚ) (v : SpiralVertex) : ℚ × ℚ :=
  let x := rad * (T.cos angle + angle * T.sin angle)
  let y := rad * (T.sin angle - angle * T.cos angle)
  match v.groupOffset with
  | none => (x, y)
  | some o => (x - o.1, y - o.2)

/-- The claim's angle increment after placing a vertex `v` with successor
`w`: `cw * atan((diameter(v)/2 + diameter(w)/2 + spacing) / sqrt(x*x + y*y))`. -/
def stepAngle (T : TrigOps) (cw rad space a0 : ℚ) (v w : SpiralVertex) : ℚ :=
  let p := specXY T rad a0 v
  a0 + cw * T.atan ((diameter T v / 2 + diameter T w / 2 + space) /
    T.sqrt (p.1 * p.1 + p.2 * p.2))

/-- The claim's angle sequence over a chain of vertices, from a seed angle:
the angle stays put once a vertex has no successor. -/
def specAngleFrom (T : TrigOps) (cw rad space : ℚ) (verts : List SpiralVertex)
    (a0 : ℚ) : ℕ → ℚ
  | 0 => a0
  | k + 1 =>
    let a := specAngleFrom T cw rad space verts a0 k
    match verts.get? k, verts.get? (k + 1) with
    | some v, some w => stepAngle T cw rad space a v w
    | _, _ => a

/-- The claim's angle sequence: it starts at `cw * PI`. -/
def specAngle (T : TrigOps) (cw rad space : ℚ) (verts : List SpiralVertex)
    (k : ℕ) : ℚ :=
  specAngleFrom T cw rad space verts (cw * T.pi) k

lemma specAngleFrom_shift (T : TrigOps) (cw rad space : ℚ) (v w : SpiralVertex)
    (rest2 : List SpiralVertex) (a0 : ℚ) :
    ∀ k, specAngleFrom T cw rad space (v :: w :: rest2) a0 (k + 1) =
      specAngleFrom T cw rad space (w :: rest2) (stepAngle T cw rad space a0 v w) k := by
  intro k
  induction k with
  | zero => simp [specAngleFrom]
  | succ k ih =>
    rw [specAngleFrom]
    rw [ih]
    conv_rhs => rw [specAngleFrom]
    simp [List.get?_cons_succ]

lemma placeRest_get? (T : TrigOps) (cw rad space ox oy : ℚ) :
    ∀ (verts : List SpiralVertex) (a0 : ℚ) (k : ℕ),
      (placeRest T cw rad space ox oy a0 verts).get? k =
        (verts.get? k).map (fun v =>
          ((specXY T rad (specAngleFrom T cw rad space verts a0 k) v).1 + ox,
           (specXY T rad (specAngleFrom T cw rad space verts a0 k) v).2 + oy)) := by
  intro verts
  induction verts with
  | nil => intro a0 k; simp [placeRest]
  | cons v rest ih =>
    intro a0 k
    cases rest with
    | nil =>
      cases k with
      | zero =>
        cases hvo : v.groupOffset <;>
          simp [placeRest, specXY, specAngleFrom, hvo]
      | succ k => simp [placeRest, specAngleFrom]
    | cons w rest2 =>
      cases k with
      | zero =>
        cases hvo : v.groupOffset <;>
          simp [placeRest, specXY, specAngleFrom, hvo]
      | succ k =>
        cases hvo : v.groupOffset with
        | none =>
          simp only [placeRest, hvo, List.get?_cons_succ]
          rw [ih]
          rw [specAngleFrom_shift]
          simp [stepAngle, specXY, hvo]
        | some o =>
          simp only [placeRest, hvo, List.get?_cons_succ]
          rw [ih]
          rw [specAngleFrom_shift]
          simp [stepAngle, specXY, hvo]

/-! ## Theorems for claims C2, C3, C6, C7, C8 -/

/-- Claim C2: setting DimensioningLink.direction to v succeeds exactly when
v is NaN, 0, 90, 180 or 270 (storing v, raising a Changed event named
direction, and invalidating the route); for every other number v the setter
throws and the stored direction is unchanged. -/
theorem C2_direction_setter :
    ∀ (l : DimensioningLink) (v : JsNum),
      ((v = JsNum.nan ∨ v = .num 0 ∨ v = .num 90 ∨ v = .num 180 ∨ v = .num 270) →
        l.setDirection v =
          ({ l with direction := v },
            .ok [DimEvent.changed "direction" l.direction v, DimEvent.invalidateRoute]))
      ∧ (¬(v = JsNum.nan ∨ v = .num 0 ∨ v = .num 90 ∨ v = .num 180 ∨ v = .num 270) →
        (l.setDirection v).1 = l ∧ threw (l.setDirection v).2 = true) := by
  intro l v
  constructor
  · rintro (rfl | rfl | rfl | rfl | rfl) <;> rfl
  · intro hne
    match v with
    | .nan => exact absurd (Or.inl rfl) hne
    | .num q =>
      have h0 : q ≠ 0 := fun h => hne (Or.inr (Or.inl (by rw [h])))
      have h90 : q ≠ 90 := fun h => hne (Or.inr (Or.inr (Or.inl (by rw [h]))))
      have h180 : q ≠ 180 := fun h => hne (Or.inr (Or.inr (Or.inr (Or.inl (by rw [h])))))
      have h270 : q ≠ 270 := fun h => hne (Or.inr (Or.inr (Or.inr (Or.inr (by rw [h])))))
      simp [DimensioningLink.setDirection, JsNum.isNaN, threw, h0, h90, h180, h270]

/-- Claim C2 witness at a concrete link and the invalid direction 45. -/
theorem C2_direction_setter_witness :
    (({ direction := .num 0, extension := 30, inset := 10, gap := 10 } :
        DimensioningLink).setDirection (.num 90)).1.direction = .num 90
    ∧ (({ direction := .num 0, extension := 30, inset := 10, gap := 10 } :
        DimensioningLink).setDirection (.num 45)).1.direction = .num 0
    ∧ threw (({ direction := .num 0, extension := 30, inset := 10, gap := 10 } :
        DimensioningLink).setDirection (.num 45)).2 = true := by
  have hok := (C2_direction_setter
    { direction := .num 0, extension := 30, inset := 10, gap := 10 } (.num 90)).1
    (Or.inr (Or.inr (Or.inl rfl)))
  have hbad := (C2_direction_setter
    { direction := .num 0, extension := 30, inset := 10, gap := 10 } (.num 45)).2
    (by rintro (h | h | h | h | h) <;> simp_all)
  refine ⟨?_, ?_, hbad.2⟩
  · rw [hok]
  · rw [hbad.1]

/-- Claim C3: every ZoomSlider property setter is guarded by a type check:
for every wrong-typed value (non-number for size and buttonSize; non-Spot
for alignment and alignmentFocus; a string other than horizontal or
vertical for orientation; a non-number or a number outside the interval
from 0 to 1 for opacity) that differs from the current value, the
assignment throws and the stored fields are unchanged. -/
theorem C3_zoomSlider_setter_guards :
    ∀ (z : ZoomSlider) (v : JsVal),
      (v.typeofNumber = false → jsNumValEq z.size v = false →
        (z.setSize v).1 = z ∧ threw (z.setSize v).2 = true)
      ∧ (v.typeofNumber = false → jsNumValEq z.buttonSize v = false →
        (z.setButtonSize v).1 = z ∧ threw (z.setButtonSize v).2 = true)
      ∧ (v.isSpot = false → z.alignment.equalsVal v = false →
        (z.setAlignment v).1 = z ∧ threw (z.setAlignment v).2 = true)
      ∧ (v.isSpot = false → z.alignmentFocus.equalsVal v = false →
        (z.setAlignmentFocus v).1 = z ∧ threw (z.setAlignmentFocus v).2 = true)
      ∧ (∀ t : String, v = .str t → t ≠ "horizontal" → t ≠ "vertical" →
        z.orientation ≠ t →
        (z.setOrientation v).1 = z ∧ threw (z.setOrientation v).2 = true)
      ∧ ((v.typeofNumber = false ∨ ∃ q : ℚ, v = .num q ∧ (q < 0 ∨ 1 < q)) →
        jsNumValEq z.opacity v = false →
        (z.setOpacity v).1 = z ∧ threw (z.setOpacity v).2 = true) := by
  intro z v
  have hnum : v.typeofNumber = false → v.toNum = none := by
    cases v <;> simp [JsVal.typeofNumber, JsVal.toNum]
  refine ⟨?_, ?_, ?_, ?_, ?_, ?_⟩
  · intro ht he
    simp [ZoomSlider.setSize, he, hnum ht, threw]
  · intro ht he
    simp [ZoomSlider.setButtonSize, he, hnum ht, threw]
  · intro ht he
    cases v <;> simp_all [ZoomSlider.setAlignment, JsVal.isSpot, threw]
  · intro ht he
    cases v <;> simp_all [ZoomSlider.setAlignmentFocus, JsVal.isSpot, threw]
  · rintro t rfl hh hv _
    simp [ZoomSlider.setOrientation, hh, hv, threw]
  · rintro (ht | ⟨q, rfl, hq⟩) he
    · simp [ZoomSlider.setOpacity, he, hnum ht, threw]
    · simp [ZoomSlider.setOpacity, he, JsVal.toNum, hq, threw]

/-- Claim C3 witness: at the default slider, assigning the string diag to
each property throws and leaves the slider unchanged, and assigning the
out-of-range opacity 2 throws as well. -/
theorem C3_zoomSlider_setter_guards_witness :
    ((ZoomSlider.default.setSize (.str "diag")).1 = ZoomSlider.default
      ∧ threw (ZoomSlider.default.setSize (.str "diag")).2 = true)
    ∧ ((ZoomSlider.default.setButtonSize (.str "diag")).1 = ZoomSlider.default
      ∧ threw (ZoomSlider.default.setButtonSize (.str "diag")).2 = true)
    ∧ ((ZoomSlider.default.setAlignment (.str "diag")).1 = ZoomSlider.default
      ∧ threw (ZoomSlider.default.setAlignment (.str "diag")).2 = true)
    ∧ ((ZoomSlider.default.setAlignmentFocus (.str "diag")).1 = ZoomSlider.default
      ∧ threw (ZoomSlider.default.setAlignmentFocus (.str "diag")).2 = true)
    ∧ ((ZoomSlider.default.setOrientation (.str "diag")).1 = ZoomSlider.default
      ∧ threw (ZoomSlider.default.setOrientation (.str "diag")).2 = true)
    ∧ ((ZoomSlider.default.setOpacity (.num 2)).1 = ZoomSlider.default
      ∧ threw (ZoomSlider.default.setOpacity (.num 2)).2 = true) := by
  have h := C3_zoomSlider_setter_guards ZoomSlider.default (.str "diag")
  have h6 := (C3_zoomSlider_setter_guards ZoomSlider.default (.num 2)).2.2.2.2.2
  exact ⟨h.1 rfl rfl, h.2.1 rfl rfl, h.2.2.1 rfl rfl, h.2.2.2.1 rfl rfl,
    h.2.2.2.2.1 "diag" rfl (by decide) (by decide) (by decide),
    h6 (Or.inr ⟨2, rfl, Or.inr (by norm_num)⟩)
      (by norm_num [ZoomSlider.default, jsNumValEq])⟩

/-- Claim C6 counterexample: the claim that every component class extends
one of Link, Layout or Tool is false: ZoomSlider is declared with no
extends clause at all. -/
theorem C6_counterexample :
    ¬ (∀ c : ComponentClass, (declaredSuperclass c).isSome = true) := by
  decide

/-- Claim C6 (amended): ZoomSlider is a plain class with no superclass;
every other component class is declared as a subclass of one of the
library-provided base classes (BalloonLink and DimensioningLink extend
Link; DoubleTreeLayout, ArrangingLayout and SpiralLayout extend Layout;
LinkShiftingTool extends Tool). -/
theorem C6_amended_superclasses :
    declaredSuperclass .zoomSlider = none
    ∧ declaredSuperclass .balloonLink = some .link
    ∧ declaredSuperclass .dimensioningLink = some .link
    ∧ declaredSuperclass .doubleTreeLayout = some .layout
    ∧ declaredSuperclass .arrangingLayout = some .layout
    ∧ declaredSuperclass .spiralLayout = some .layout
    ∧ declaredSuperclass .linkShiftingTool = some .tool
    ∧ ∀ c : ComponentClass, c = .zoomSlider ∨ (declaredSuperclass c).isSome = true := by
  decide

/-- Claim C7 counterexample: ZoomSlider.js is not under 300 lines by either
measure: it has 437 lines in total, 308 of which are neither blank nor
comment-only. -/
theorem C7_counterexample :
    ∃ f ∈ repoFiles, f.name = "ZoomSlider.js" ∧ 300 ≤ f.codeLines ∧ 300 ≤ f.totalLines := by
  decide

/-- Claim C7 (amended): each of the seven component source files other than
ZoomSlider.js is under 300 lines of code, counting lines that are neither
blank nor comment-only; ZoomSlider.js has 308 such lines (437 in total). -/
theorem C7_amended_file_sizes :
    ∀ f ∈ repoFiles, f.name = "ZoomSlider.js" ∨ f.codeLines < 300 := by
  decide

/-- Claim C7 witness: the amended bound applied to ArrangingLayout.ts,
whose 259 non-blank non-comment lines are under 300. -/
theorem C7_amended_file_sizes_witness :
    (⟨"ArrangingLayout.ts", 448, 259⟩ : SourceFile).name = "ZoomSlider.js"
    ∨ (⟨"ArrangingLayout.ts", 448, 259⟩ : SourceFile).codeLines < 300 :=
  C7_amended_file_sizes ⟨"ArrangingLayout.ts", 448, 259⟩ (by decide)

/-- Claim C8: setting ZoomSlider.alignmentFocus to a Spot that is not equal
to the current alignmentFocus assigns it to both the stored alignmentFocus
and the stored alignment, so an alignmentFocus assignment can change the
alignment property. -/
theorem C8_alignmentFocus_frame_effect :
    (∀ (z : ZoomSlider) (s : Spot), z.alignmentFocus ≠ s →
      (z.setAlignmentFocus (.spot s)).1.alignment = s
      ∧ (z.setAlignmentFocus (.spot s)).1.alignmentFocus = s)
    ∧ (∃ (z : ZoomSlider) (s : Spot), z.alignmentFocus ≠ s
      ∧ (z.setAlignmentFocus (.spot s)).1.alignment ≠ z.alignment) := by
  constructor
  · intro z s hne
    have : z.alignmentFocus.equalsVal (.spot s) = false := by
      simp [Spot.equalsVal, hne]
    simp [ZoomSlider.setAlignmentFocus, this]
  · refine ⟨ZoomSlider.default, ⟨0, 0, 0, 0⟩, by decide, by decide⟩

/-- Claim C8 witness: assigning Spot.TopLeft to alignmentFocus on the
default slider updates both spot fields. -/
theorem C8_alignmentFocus_frame_effect_witness :
    (ZoomSlider.default.setAlignmentFocus (.spot ⟨0, 0, 0, 0⟩)).1.alignment = ⟨0, 0, 0, 0⟩
    ∧ (ZoomSlider.default.setAlignmentFocus
        (.spot ⟨0, 0, 0, 0⟩)).1.alignmentFocus = ⟨0, 0, 0, 0⟩ :=
  C8_alignmentFocus_frame_effect.1 ZoomSlider.default ⟨0, 0, 0, 0⟩ (by decide)

/-- Claim C4: DimensioningLink.computePoints returns false (leaving the
route unmodified) whenever fromNode, fromPort, toNode or toPort is null or
either computed link end point is not real; otherwise, for every direction
among 0, 90, 180, 270 and NaN, it clears the route, sets exactly six
points and returns true. -/
theorem C4_computePoints :
    ∀ (ops : PointOps) (l : DimensioningLink) (r : DimRoute),
      ((r.hasFromNode = false ∨ r.hasFromPort = false ∨ r.hasToNode = false
        ∨ r.hasToPort = false ∨ r.frompoint.isReal = false
        ∨ r.topoint.isReal = false) →
        l.computePoints ops r = none)
      ∧ (r.hasFromNode = true → r.hasFromPort = true → r.hasToNode = true →
        r.hasToPort = true → r.frompoint.isReal = true → r.topoint.isReal = true →
        (l.direction = JsNum.nan ∨ l.direction = .num 0 ∨ l.direction = .num 90
          ∨ l.direction = .num 180 ∨ l.direction = .num 270) →
        ∃ pts, l.computePoints ops r = some pts ∧ pts.length = 6) := by
  intro ops l r
  rcases r with ⟨n1, p1, n2, p2, ⟨fpx, fpy⟩, ⟨tpx, tpy⟩⟩
  constructor
  · intro hor
    cases n1 <;> cases p1 <;> cases n2 <;> cases p2 <;>
      cases fpx <;> cases fpy <;> cases tpx <;> cases tpy <;>
        simp_all [DimensioningLink.computePoints, JsPoint.isReal]
  · intro h1 h2 h3 h4 hf ht hd
    subst h1; subst h2; subst h3; subst h4
    cases fpx with
    | nan => simp [JsPoint.isReal] at hf
    | num fx =>
    cases fpy with
    | nan => simp [JsPoint.isReal] at hf
    | num fy =>
    cases tpx with
    | nan => simp [JsPoint.isReal] at ht
    | num tx =>
    cases tpy with
    | nan => simp [JsPoint.isReal] at ht
    | num ty =>
    rcases hd with hd | hd | hd | hd | hd <;>
      simp only [DimensioningLink.computePoints, hd] <;>
      norm_num

/-- Claim C4 witness: with identity-like point operations, a route with a
missing from node yields none, while a complete route with direction 90
yields exactly six points. -/
theorem C4_computePoints_witness :
    ({ direction := .num 90, extension := 30, inset := 10, gap := 10 } :
        DimensioningLink).computePoints
      ⟨fun _ _ => 0, fun p _ => p⟩
      ⟨false, true, true, true, ⟨.num 0, .num 0⟩, ⟨.num 50, .num 0⟩⟩ = none
    ∧ ∃ pts, ({ direction := .num 90, extension := 30, inset := 10, gap := 10 } :
        DimensioningLink).computePoints
      ⟨fun _ _ => 0, fun p _ => p⟩
      ⟨true, true, true, true, ⟨.num 0, .num 0⟩, ⟨.num 50, .num 0⟩⟩ = some pts
      ∧ pts.length = 6 :=
  ⟨(C4_computePoints ⟨fun _ _ => 0, fun p _ => p⟩
      { direction := .num 90, extension := 30, inset := 10, gap := 10 }
      ⟨false, true, true, true, ⟨.num 0, .num 0⟩, ⟨.num 50, .num 0⟩⟩).1
      (Or.inl rfl),
   (C4_computePoints ⟨fun _ _ => 0, fun p _ => p⟩
      { direction := .num 90, extension := 30, inset := 10, gap := 10 }
      ⟨true, true, true, true, ⟨.num 0, .num 0⟩, ⟨.num 50, .num 0⟩⟩).2
      rfl rfl rfl rfl rfl rfl (Or.inr (Or.inr (Or.inl rfl)))⟩

/-- Claim C1: SpiralLayout.doLayout places the chain by the involute
spiral formula: the root's center is the arrangement origin; the angle
starts at cw times PI with cw equal to 1 when clockwise and -1 otherwise;
the k-th following vertex's center is the involute point of the claim's
angle sequence translated by the origin (and shifted by the group-member
offset); after a vertex with a successor the angle increases by
`cw * atan((diameter(vert)/2 + diameter(next)/2 + spacing) / sqrt(x*x + y*y))`;
the radius used is the radius property when positive and finite and a
quarter of the root's diameter otherwise. -/
theorem C1_spiralLayout_positions :
    ∀ (T : TrigOps) (clockwise : Bool) (radius : JsNum) (spacing ox oy : ℚ)
      (root : SpiralVertex) (rest : List SpiralVertex),
      (SpiralLayout.doLayoutPositions T clockwise radius spacing ox oy root rest).get? 0
        = some (ox, oy)
      ∧ (∀ k : ℕ,
          (SpiralLayout.doLayoutPositions T clockwise radius spacing ox oy
              root rest).get? (k + 1)
            = (rest.get? k).map (fun v =>
                ((specXY T (effectiveRadius T radius root)
                    (specAngle T (if clockwise then 1 else -1)
                      (effectiveRadius T radius root) spacing rest k) v).1 + ox,
                 (specXY T (effectiveRadius T radius root)
                    (specAngle T (if clockwise then 1 else -1)
                      (effectiveRadius T radius root) spacing rest k) v).2 + oy)))
      ∧ specAngle T (if clockwise then 1 else -1) (effectiveRadius T radius root)
          spacing rest 0 = (if clockwise then 1 else -1) * T.pi
      ∧ (∀ r : ℚ, radius = .num r → 0 < r → effectiveRadius T radius root = r)
      ∧ ((radius = JsNum.nan ∨ ∃ r, radius = .num r ∧ r ≤ 0) →
          effectiveRadius T radius root = diameter T root / 4) := by
  intro T clockwise radius spacing ox oy root rest
  refine ⟨rfl, ?_, rfl, ?_, ?_⟩
  · intro k
    simp only [SpiralLayout.doLayoutPositions, List.get?_cons_succ]
    exact placeRest_get? T (if clockwise then 1 else -1)
      (effectiveRadius T radius root) spacing ox oy rest
      ((if clockwise then 1 else -1) * T.pi) k
  · intro r hr hpos
    subst hr
    have : ¬ r ≤ 0 := not_le.mpr hpos
    simp [effectiveRadius, this]
  · rintro (rfl | ⟨r, rfl, hle⟩)
    · rfl
    · simp [effectiveRadius, hle]

/-- A concrete interpretation of the abstract Math operations for the
witness: identities with pi read as 3. -/
def trigTest : TrigOps :=
  ⟨3, fun q => q, fun q => q, fun q => q, fun q => q⟩

/-- Claim C1 witness: with the concrete operations, a stored radius 5 is
used as is, a stored radius 0 falls back to a quarter of the root's
diameter, and the root of a two-vertex chain is placed at the origin. -/
theorem C1_spiralLayout_positions_witness :
    effectiveRadius trigTest (.num 5) ⟨30, 40, none⟩ = 5
    ∧ effectiveRadius trigTest (.num 0) ⟨30, 40, none⟩
        = diameter trigTest ⟨30, 40, none⟩ / 4
    ∧ (SpiralLayout.doLayoutPositions trigTest true (.num 5) 10 7 8
        ⟨30, 40, none⟩ [⟨2, 2, none⟩]).get? 0 = some (7, 8) := by
  have h := C1_spiralLayout_positions trigTest true (.num 5) 10 7 8
    ⟨30, 40, none⟩ [⟨2, 2, none⟩]
  have h0 := C1_spiralLayout_positions trigTest true (.num 0) 10 7 8
    ⟨30, 40, none⟩ [⟨2, 2, none⟩]
  exact ⟨h.2.2.2.1 5 rfl (by norm_num), h0.2.2.2.2 (Or.inr ⟨0, rfl, le_refl 0⟩), h.1⟩

/-- Claim C5: separatePartsForLayout puts the chosen root into both
leftParts and rightParts, and for every immediate tree child of the root
the whole subtree rooted at that child (its findTreeParts) plus the link
from the root to that child is added to rightParts when the direction
function holds of the child and to leftParts otherwise; with multiple
roots a fresh dummy root linked to each of them is used, and with none
the first Node of the collection is chosen. -/
theorem C5_separatePartsForLayout :
    ∀ (d : TreeDiagram) (dir : ℕ → Bool) (coll : List GPart),
      (rootsOf d coll = [] →
        chooseRoot d coll = (firstNodeOf coll).map (fun r => (r, d)))
      ∧ (∀ r, rootsOf d coll = [r] → chooseRoot d coll = some (r, d))
      ∧ (2 ≤ (rootsOf d coll).length →
        chooseRoot d coll = some (freshId coll, dummyExtended d coll)
        ∧ (∀ n, GPart.node n ∈ coll → n ≠ freshId coll)
        ∧ ∀ r' ∈ rootsOf d coll,
            (if d.forwards then (freshId coll, r') else (r', freshId coll))
              ∈ (dummyExtended d coll).links)
      ∧ (∀ root d2, chooseRoot d coll = some (root, d2) →
        GPart.node root ∈ (separatePartsForLayout d dir coll).1
        ∧ GPart.node root ∈ (separatePartsForLayout d dir coll).2
        ∧ ∀ c ∈ findTreeChildrenNodes d2 root,
            (∀ p ∈ findTreeParts d2 (d2.links.length + 1) c,
              p ∈ (if dir c then (separatePartsForLayout d dir coll).2
                   else (separatePartsForLayout d dir coll).1))
            ∧ (∀ pl, findTreeParentLink d2 c = some pl →
              GPart.link pl.1 pl.2 ∈
                (if dir c then (separatePartsForLayout d dir coll).2
                 else (separatePartsForLayout d dir coll).1))) := by
  intro d dir coll
  refine ⟨?_, ?_, ?_, ?_⟩
  · intro h
    rw [chooseRoot]
    simp only [h, List.length_nil, if_true]
    cases firstNodeOf coll <;> simp
  · intro r h
    rw [chooseRoot]
    simp [h]
  · intro h
    refine ⟨?_, fun n hn => freshId_not_node coll n hn, ?_⟩
    · rw [chooseRoot]
      have h0 : ¬(rootsOf d coll).length = 0 := by omega
      have h1 : ¬(rootsOf d coll).length = 1 := by omega
      simp [h0, h1]
    · intro r' hr'
      rw [dummyExtended]
      refine List.mem_append_right _ ?_
      exact List.mem_map.mpr ⟨r', hr', rfl⟩
  · intro root d2 h
    have hsep : separatePartsForLayout d dir coll =
        addSubtrees d2 dir (d2.links.length + 1)
          (findTreeChildrenNodes d2 root)
          ([GPart.node root], [GPart.node root]) := by
      rw [separatePartsForLayout, h]
    rw [hsep]
    refine ⟨(addSubtrees_mono d2 dir _ _ _ _).1 (by simp),
            (addSubtrees_mono d2 dir _ _ _ _).2 (by simp), ?_⟩
    intro c hc
    constructor
    · intro p hp
      exact addSubtrees_insert d2 dir _ _ _ c hc p (Or.inl hp)
    · intro pl hpl
      exact addSubtrees_insert d2 dir _ _ _ c hc _ (Or.inr ⟨pl, hpl, rfl⟩)

/-- A concrete three-node tree for the separatePartsForLayout witness:
node 1 with children 2 and 3. -/
def treeD : TreeDiagram := ⟨[(1, 2), (1, 3)], true⟩

/-- Its collection of parts. -/
def treeColl : List GPart :=
  [.node 1, .node 2, .node 3, .link 1 2, .link 1 3]

/-- Claim C5 witness: on the concrete tree with direction function true
exactly on node 2, the root selection returns node 1, the root is in both
part sets, node 2 and the link from 1 to 2 land in rightParts, and node 3
and the link from 1 to 3 land in leftParts. -/
theorem C5_separatePartsForLayout_witness :
    chooseRoot treeD treeColl = some (1, treeD)
    ∧ GPart.node 1 ∈ (separatePartsForLayout treeD (fun n => n == 2) treeColl).1
    ∧ GPart.node 1 ∈ (separatePartsForLayout treeD (fun n => n == 2) treeColl).2
    ∧ GPart.node 2 ∈ (separatePartsForLayout treeD (fun n => n == 2) treeColl).2
    ∧ GPart.link 1 2 ∈ (separatePartsForLayout treeD (fun n => n == 2) treeColl).2
    ∧ GPart.node 3 ∈ (separatePartsForLayout treeD (fun n => n == 2) treeColl).1
    ∧ GPart.link 1 3 ∈ (separatePartsForLayout treeD (fun n => n == 2) treeColl).1 := by
  have hthm := C5_separatePartsForLayout treeD (fun n => n == 2) treeColl
  have hroot : chooseRoot treeD treeColl = some (1, treeD) :=
    hthm.2.1 1 (by decide)
  have hmain := hthm.2.2.2 1 treeD hroot
  have h2 := hmain.2.2 2 (by decide)
  have h3 := hmain.2.2 3 (by decide)
  have h2a := h2.1 (GPart.node 2) (by decide)
  have h2b := h2.2 (1, 2) (by decide)
  have h3a := h3.1 (GPart.node 3) (by decide)
  have h3b := h3.2 (1, 3) (by decide)
  simp only [beq_iff_eq] at h2a h2b h3a h3b
  norm_num at h2a h2b h3a h3b
  exact ⟨hroot, hmain.1, hmain.2.1, h2a, h2b, h3a, h3b⟩

/-- Claim C9: splitParts with a null filter places every non-Link Part in
exactly one of maincoll and sidecoll (a Node goes to maincoll iff it has a
connected link, any other non-Link goes to sidecoll), and places a Link in
maincoll iff both its end nodes are in maincoll, in sidecoll iff both are
in sidecoll, and in neither when its end nodes are split between the two
or an end node is missing.  Node ids are assumed to identify Nodes. -/
theorem C9_splitParts_membership :
    ∀ (coll : List APart),
      (∀ i c c', APart.node i c ∈ coll → APart.node i c' ∈ coll → c = c') →
      ∀ p ∈ coll,
        (∀ i c, p = APart.node i c →
          ((p ∈ (splitParts coll).1 ↔ 0 < c) ∧ (p ∈ (splitParts coll).2 ↔ c = 0)))
        ∧ (∀ i, p = APart.other i →
          (p ∉ (splitParts coll).1 ∧ p ∈ (splitParts coll).2))
        ∧ (∀ i fa ta, p = APart.link i fa ta →
          ((p ∈ (splitParts coll).1 ↔ ∃ a b, fa = some a ∧ ta = some b ∧
              nodeMem (splitParts coll).1 a = true ∧ nodeMem (splitParts coll).1 b = true)
           ∧ (p ∈ (splitParts coll).2 ↔ ∃ a b, fa = some a ∧ ta = some b ∧
              nodeMem (splitParts coll).2 a = true ∧ nodeMem (splitParts coll).2 b = true))) := by
  intro coll huniq p hp
  have h1 : (splitParts coll).1 =
      coll.filter isMainPart ++ coll.filter (linkMainP (coll.filter isMainPart)) := by
    rw [splitParts_eq]
  have h2 : (splitParts coll).2 =
      coll.filter isSidePart ++
        coll.filter (linkSideP (coll.filter isMainPart) (coll.filter isSidePart)) := by
    rw [splitParts_eq]
  have hmm : ∀ n, nodeMem (splitParts coll).1 n = nodeMem (coll.filter isMainPart) n :=
    fun n => (nodeMem_splitParts coll n).1
  have hms : ∀ n, nodeMem (splitParts coll).2 n = nodeMem (coll.filter isSidePart) n :=
    fun n => (nodeMem_splitParts coll n).2
  refine ⟨?_, ?_, ?_⟩
  · rintro i c rfl
    constructor
    · rw [h1]
      simp only [List.mem_append, List.mem_filter]
      constructor
      · rintro (⟨_, h⟩ | ⟨_, h⟩)
        · simpa [isMainPart] using h
        · simp [linkMainP] at h
      · intro hc
        exact Or.inl ⟨hp, by simpa [isMainPart] using hc⟩
    · rw [h2]
      simp only [List.mem_append, List.mem_filter]
      constructor
      · rintro (⟨_, h⟩ | ⟨_, h⟩)
        · simpa [isSidePart] using h
        · simp [linkSideP] at h
      · intro hc
        exact Or.inl ⟨hp, by simpa [isSidePart] using hc⟩
  · rintro i rfl
    constructor
    · rw [h1]
      simp only [List.mem_append, List.mem_filter]
      rintro (⟨_, h⟩ | ⟨_, h⟩)
      · simp [isMainPart] at h
      · simp [linkMainP] at h
    · rw [h2]
      simp only [List.mem_append, List.mem_filter]
      exact Or.inl ⟨hp, by simp [isSidePart]⟩
  · rintro i fa ta rfl
    constructor
    · simp only [hmm]
      rw [h1]
      simp only [List.mem_append, List.mem_filter]
      constructor
      · rintro (⟨_, h⟩ | ⟨_, h⟩)
        · simp [isMainPart] at h
        · cases fa with
          | none => simp [linkMainP] at h
          | some a =>
            cases ta with
            | none => simp [linkMainP] at h
            | some b =>
              simp only [linkMainP, Bool.and_eq_true] at h
              exact ⟨a, b, rfl, rfl, h.1, h.2⟩
      · rintro ⟨a, b, ha, hb, hna, hnb⟩
        subst ha
        subst hb
        exact Or.inr ⟨hp, by simp [linkMainP, hna, hnb]⟩
    · simp only [hms]
      rw [h2]
      simp only [List.mem_append, List.mem_filter]
      constructor
      · rintro (⟨_, h⟩ | ⟨_, h⟩)
        · simp [isSidePart] at h
        · cases fa with
          | none => simp [linkSideP] at h
          | some a =>
            cases ta with
            | none => simp [linkSideP] at h
            | some b =>
              simp only [linkSideP, Bool.and_eq_true, Bool.not_eq_true'] at h
              exact ⟨a, b, rfl, rfl, h.2.1, h.2.2⟩
      · rintro ⟨a, b, ha, hb, hna, hnb⟩
        subst ha
        subst hb
        have hfa : nodeMem (coll.filter isMainPart) a = false := by
          cases hq : nodeMem (coll.filter isMainPart) a with
          | false => rfl
          | true => exact absurd (nodeMem_not_both coll huniq a hq hna) not_false
        exact Or.inr ⟨hp, by simp [linkSideP, hna, hnb, hfa]⟩

/-- A concrete collection for the splitParts witness: two connected nodes,
one isolated node, a non-Node Part, a link between the connected nodes, a
link with ends split between the collections, and a link with a missing
end. -/
def apColl : List APart :=
  [.node 1 2, .node 2 1, .node 3 0, .other 4,
   .link 10 (some 1) (some 2), .link 11 (some 1) (some 3), .link 12 none (some 1)]

/-- Claim C9 witness: on the concrete collection, the connected link is in
maincoll (its ends both are), and the node membership claims hold for the
connected node 1 and the isolated node 3. -/
theorem C9_splitParts_membership_witness :
    (APart.link 10 (some 1) (some 2) ∈ (splitParts apColl).1 ↔
      ∃ a b, (some 1 : Option ℕ) = some a ∧ (some 2 : Option ℕ) = some b ∧
        nodeMem (splitParts apColl).1 a = true ∧ nodeMem (splitParts apColl).1 b = true)
    ∧ (APart.node 3 0 ∈ (splitParts apColl).2 ↔ (0 : ℕ) = 0) := by
  have huniq : ∀ i c c', APart.node i c ∈ apColl → APart.node i c' ∈ apColl → c = c' := by
    intro i c c' hc hc'
    simp only [apColl, List.mem_cons, List.not_mem_nil, or_false] at hc hc'
    rcases hc with h | h | h | h | h | h | h <;>
      rcases hc' with h' | h' | h' | h' | h' | h' | h' <;> simp_all
  refine ⟨(((C9_splitParts_membership apColl huniq
      (APart.link 10 (some 1) (some 2)) (by simp [apColl])).2.2)
      10 (some 1) (some 2) rfl).1, ?_⟩
  have hn := ((C9_splitParts_membership apColl huniq
      (APart.node 3 0) (by simp [apColl])).1 3 0 rfl).2
  simpa using hn

/-- Claim C10: BalloonLink.makeGeometry returns a fresh empty Geometry
whenever the from node is null, and otherwise the corner radius it actually
uses is clamped to the interval from 0 to the smaller half-extent of the
from node's margin-expanded bounds, and the triangle base it uses is
clamped to be at least 0, regardless of the stored corner and base values. -/
theorem C10_makeGeometry_clamps :
    (∀ l : BalloonLink, l.fromNodeBounds = none → l.makeGeometry = Geometry.empty)
    ∧ (∀ (l : BalloonLink) (fb : Rect), l.fromNodeBounds = some fb →
        0 ≤ (fb.addMargin l.fromNodeMargin).width →
        0 ≤ (fb.addMargin l.fromNodeMargin).height →
        0 ≤ l.cornerUsed (fb.addMargin l.fromNodeMargin)
        ∧ l.cornerUsed (fb.addMargin l.fromNodeMargin) ≤
            min ((fb.addMargin l.fromNodeMargin).width / 2)
              ((fb.addMargin l.fromNodeMargin).height / 2)
        ∧ 0 ≤ l.baseUsed) := by
  constructor
  · intro l h
    unfold BalloonLink.makeGeometry
    rw [h]
  · intro l fb _ hw hh
    refine ⟨le_min (le_max_left 0 l.corner) (le_min ?_ ?_), min_le_right _ _,
      le_max_left 0 l.base⟩
    · positivity
    · positivity

/-- A concrete BalloonLink with no from node, stored corner 1000 and stored
base -7. -/
def balloonNoFrom : BalloonLink :=
  { base := -7, corner := 1000, fromNodeBounds := none,
    fromNodeMargin := ⟨0, 0, 0, 0⟩, toNodeBounds := none,
    points := [], routeBounds := ⟨0, 0, 0, 0⟩ }

/-- The same BalloonLink with a from node whose actual bounds are the
rectangle at the origin of width 40 and height 20. -/
def balloonWithFrom : BalloonLink :=
  { balloonNoFrom with fromNodeBounds := some ⟨0, 0, 40, 20⟩ }

/-- Claim C10 witness: the link with no from node yields the empty
Geometry, and with the 40-by-20 from node, no margin, stored corner 1000
and stored base -7, the used corner lies between 0 and 10 and the used
base is at least 0. -/
theorem C10_makeGeometry_clamps_witness :
    balloonNoFrom.makeGeometry = Geometry.empty
    ∧ (0 ≤ balloonWithFrom.cornerUsed
          (Rect.addMargin ⟨0, 0, 40, 20⟩ balloonWithFrom.fromNodeMargin)
      ∧ balloonWithFrom.cornerUsed
          (Rect.addMargin ⟨0, 0, 40, 20⟩ balloonWithFrom.fromNodeMargin) ≤
          min ((Rect.addMargin ⟨0, 0, 40, 20⟩ balloonWithFrom.fromNodeMargin).width / 2)
            ((Rect.addMargin ⟨0, 0, 40, 20⟩ balloonWithFrom.fromNodeMargin).height / 2)
      ∧ 0 ≤ balloonWithFrom.baseUsed) :=
  ⟨C10_makeGeometry_clamps.1 balloonNoFrom rfl,
   C10_makeGeometry_clamps.2 balloonWithFrom ⟨0, 0, 40, 20⟩ rfl
     (by norm_num [Rect.addMargin, balloonWithFrom, balloonNoFrom])
     (by norm_num [Rect.addMargin, balloonWithFrom, balloonNoFrom])⟩

end GoJS
